import Mathlib

/-!
Verification development for the GhostMentor context-acquisition and
analysis-dispatch pipeline.  The definitions below are a shallow embedding of
the Python source (`ghostmentor.py`, `audio_manager.py`, `api_manager.py`):
pure functions model the bodies of the source functions, global mutable state
is threaded explicitly through a record, and the asynchronous pieces (hotkey
handler, asyncio event loop) are modelled as explicit step relations.
-/

namespace GhostMentor

/-! ### Python string primitives

Python's `str.strip()` removes whitespace from both ends.  We model strings
through their character lists (`String.data`); `stripChars` is strip on
character lists and `pyStrip` the induced operation on `String`. -/

/-- Characters removed by Python `str.strip()`. -/
def isWs (c : Char) : Bool := c.isWhitespace

/-- Python `str.strip()` on a character list: drop whitespace from both ends. -/
def stripChars (l : List Char) : List Char :=
  ((l.dropWhile isWs).reverse.dropWhile isWs).reverse

/-- Python `str.strip()`. -/
def pyStrip (s : String) : String := ⟨stripChars s.data⟩

/-! ### Transcription pipeline (`audio_manager.py`)

`AudioManager._process_audio_buffer` joins the Whisper segments with a single
space, strips the result, discards it when it has at most two characters, and
otherwise overwrites `current_transcript` and invokes the registered callback
once with the new text. -/

/-- The `text` value of `_process_audio_buffer`:
`" ".join(segment.text for segment in segments).strip()`. -/
def joinSegments (segs : List String) : String :=
  pyStrip (String.intercalate " " segs)

/-- Transcript-side state of the pipeline: the single current transcript and
the list of callback invocations (in order, with their argument). -/
structure TransState where
  transcript : String
  callbackCalls : List String
deriving Repr, DecidableEq

/-- `AudioManager._process_audio_buffer`, result part: filtering
(`if text and len(text) > 2`), overwrite of `current_transcript`, and the
callback invocation. -/
def process_audio_result (segs : List String) (s : TransState) : TransState :=
  let text := joinSegments segs
  if text ≠ "" ∧ 2 < text.length then
    { transcript := text, callbackCalls := s.callbackCalls ++ [text] }
  else s

/-! ### Accumulator loop (`AudioManager._transcription_worker`)

Each loop iteration reads one chunk of `chunk_size` frames, appends it to
`audio_buffer`, and flushes through `_process_audio_buffer` as soon as
`len(audio_buffer) * chunk_size >= buffer_frames`.  A flush concatenates the
whole buffer into a single transcription call and clears it. -/

/-- Accumulator state: the buffered chunks (frames per chunk; every source
read yields `chunk_size` frames) and the frame count consumed by each
transcription call so far. -/
structure WorkerState where
  buffer : List Nat
  flushes : List Nat
deriving Repr, DecidableEq

/-- One iteration of `_transcription_worker`: read a chunk, append it, flush
when the accumulated frame count reaches `buffer_frames`. -/
def workerStep (chunkSize bufferFrames : Nat) (s : WorkerState) : WorkerState :=
  let buf := s.buffer ++ [chunkSize]
  if bufferFrames ≤ buf.length * chunkSize then
    { buffer := [], flushes := s.flushes ++ [buf.sum] }
  else
    { buffer := buf, flushes := s.flushes }

/-- The worker after `n` successful reads, starting from an empty buffer. -/
def runWorker (chunkSize bufferFrames n : Nat) : WorkerState :=
  (List.replicate n ()).foldl (fun s _ => workerStep chunkSize bufferFrames s) ⟨[], []⟩

/-! ### Screenshot history and context state (`ghostmentor.py` globals)

The module-level mutable globals `current_transcript`, `screenshot_collection`,
`current_screenshot_index`, `current_screenshot` and `has_recent_screenshot`
are gathered in one record; screenshots are identified by opaque ids.  The
index is an `Int` because Python's is (and `save_screenshot` with capacity 0
would produce `-1`); Python's `%` on a positive divisor agrees with `Int.emod`. -/

structure GState where
  transcript : String
  collection : List Nat
  index : Int
  currentShot : Option Nat
  flag : Bool
deriving Repr, DecidableEq

/-- Initial values of the globals (`ghostmentor.py` lines 61, 87, 105, 110-111). -/
def initState : GState :=
  { transcript := "", collection := [], index := 0, currentShot := Option.none,
    flag := false }

/-- `save_screenshot` with a successful capture of image `img`: append to
`screenshot_collection`, `pop(0)` when over `max_screenshots`, set the cursor
to the newest index, cache the new image and raise `has_recent_screenshot`. -/
def save_screenshot (N : Nat) (g : GState) (img : Nat) : GState :=
  let col := g.collection ++ [img]
  let col := if N < col.length then col.drop 1 else col
  { g with collection := col, index := (col.length : Int) - 1,
           currentShot := some img, flag := true }

/-- `clear_all_screenshots`: a no-op (plus a "nothing to clear" notification)
on an empty collection, otherwise empties the collection, drops the cached
image, lowers `has_recent_screenshot` and resets the cursor. -/
def clear_all_screenshots (g : GState) : GState :=
  if g.collection = [] then g
  else { g with collection := [], currentShot := Option.none, flag := false,
                index := 0 }

/-- The Ctrl+G branch of `global_key_handler`: clear the transcript and the
screenshot flag, then `clear_all_screenshots()`. -/
def clear_all_command (g : GState) : GState :=
  clear_all_screenshots { g with transcript := "", flag := false }

/-- Notification emitted by `next_screenshot`/`prev_screenshot` on an empty
history. -/
def nothingToBrowseMsg : String := "📸 暂无截图可浏览"

/-- `next_screenshot`: on an empty collection, only the "nothing to browse"
notification; otherwise advance the cursor by one modulo the length and cache
the record at the new cursor.  Returns the new state and the notification. -/
def next_screenshot (g : GState) : GState × String :=
  if g.collection = [] then (g, nothingToBrowseMsg)
  else
    let i := (g.index + 1) % (g.collection.length : Int)
    ({ g with index := i, currentShot := some (g.collection.getD i.toNat 0) },
     "📸 切换到第 " ++ toString (i + 1) ++ "/" ++ toString g.collection.length ++ " 张截图")

/-- `prev_screenshot`: as `next_screenshot` with the cursor moved back one. -/
def prev_screenshot (g : GState) : GState × String :=
  if g.collection = [] then (g, nothingToBrowseMsg)
  else
    let i := (g.index - 1) % (g.collection.length : Int)
    ({ g with index := i, currentShot := some (g.collection.getD i.toNat 0) },
     "📸 切换到第 " ++ toString (i + 1) ++ "/" ++ toString g.collection.length ++ " 张截图")

/-- `on_transcript_updated`, as driven by `_process_audio_buffer`: when the
joined, stripped window text passes the noise filter the callback overwrites
`current_transcript`, otherwise nothing happens. -/
def apply_transcript (g : GState) (segs : List String) : GState :=
  let text := joinSegments segs
  if text ≠ "" ∧ 2 < text.length then { g with transcript := text } else g

/-! State machine of the command-processing point: one step per handled
command/event (`global_key_handler` branches plus transcript delivery). -/

inductive Cmd where
  | shot (img : Nat)
  | shotFail
  | clearAll
  | clearShots
  | nextShot
  | prevShot
  | transcribe (segs : List String)
deriving Repr, DecidableEq

/-- Effect of one command on the globals (capacity `N = max_screenshots`).
`shotFail` is a Ctrl+H whose `capture_screen()` returned `None`. -/
def step (N : Nat) (g : GState) : Cmd → GState
  | Cmd.shot img => save_screenshot N g img
  | Cmd.shotFail => g
  | Cmd.clearAll => clear_all_command g
  | Cmd.clearShots => clear_all_screenshots g
  | Cmd.nextShot => (next_screenshot g).1
  | Cmd.prevShot => (prev_screenshot g).1
  | Cmd.transcribe segs => apply_transcript g segs

/-- State after a command sequence, from the initial globals. -/
def run (N : Nat) (cs : List Cmd) : GState := cs.foldl (step N) initState

/-- A state the command loop can actually be in. -/
def Reachable (N : Nat) (g : GState) : Prop := ∃ cs, run N cs = g

/-- Invariant of the command loop's globals: the screenshot flag mirrors
non-emptiness of the collection, the transcript is empty or an accepted
(stripped, longer than two characters) window text, and the cursor is `0` on
an empty collection and in range otherwise. -/
structure Inv (g : GState) : Prop where
  flag_iff : g.flag = true ↔ g.collection ≠ []
  transcript_norm : g.transcript = "" ∨
    (pyStrip g.transcript = g.transcript ∧ 2 < g.transcript.length)
  index_empty : g.collection = [] → g.index = 0
  index_bounds : g.collection ≠ [] → 0 ≤ g.index ∧ g.index < (g.collection.length : Int)

/-! ### Analysis dispatch (`process_openai` and `api_manager.py`)

The dispatcher is modelled as a pure function of the globals, the outcome of
a fresh `capture_screen()` (used only by the fallback), the outcome of the
one remote OpenAI call that the chosen branch performs, the conversation
history, and the incoming application state.  It returns the remote calls
performed, the strings put on `text_queue`, the new history and the final
application state. -/

inductive AppState where
  | ready
  | processing
  | listening
  | error
deriving Repr, DecidableEq

/-- A remote `AnalyzeContext`-style call, as issued by the dispatcher. -/
inductive RemoteCall where
  | screen (img : Nat) (text : String)
  | multiScreens (imgs : List Nat) (text : String)
  | textOnly (text : String)
deriving Repr, DecidableEq

/-- Outcome of the remote OpenAI call: a streamed final text, or an exception
message raised inside the API manager. -/
inductive RemoteOutcome where
  | ok (resp : String)
  | exn (msg : String)
deriving Repr, DecidableEq

/-- One conversation-history entry `(question, answer)` per element. -/
abbrev Hist := List (String × String)

/-- `APIManager.analyze_screen`: empty streamed text yields `None`; an
exception yields the error string `"分析出错: ..."` (which is *returned*, not
raised); success appends to the conversation history. -/
def analyze_screen (hist : Hist) (user_text : String) (o : RemoteOutcome) :
    Option String × Hist :=
  match o with
  | RemoteOutcome.ok r =>
      if pyStrip r ≠ "" then
        (some r, hist ++ [(if user_text = "" then "[Screen Analysis]" else user_text, r)])
      else (Option.none, hist)
  | RemoteOutcome.exn e => (some ("分析出错: " ++ e), hist)

/-- `APIManager.analyze_multiple_screens`: as `analyze_screen` but with a
multi-image context marker and error string `"多屏幕分析出错: ..."`; an empty
image list yields `None`. -/
def analyze_multiple_screens (imgs : List Nat) (hist : Hist) (user_text : String)
    (o : RemoteOutcome) : Option String × Hist :=
  if imgs = [] then (Option.none, hist)
  else
    match o with
    | RemoteOutcome.ok r =>
        if pyStrip r ≠ "" then
          (some r, hist ++
            [(if user_text = "" then
                "[Multi-Screen Analysis: " ++ toString imgs.length ++ " images]"
              else user_text, r)])
        else (Option.none, hist)
    | RemoteOutcome.exn e => (some ("多屏幕分析出错: " ++ e), hist)

/-- `APIManager.analyze_text_only`: strips the streamed text; empty text or an
exception yields `None`. -/
def analyze_text_only (hist : Hist) (user_text : String) (o : RemoteOutcome) :
    Option String × Hist :=
  match o with
  | RemoteOutcome.ok r =>
      if pyStrip r ≠ "" then (some (pyStrip r), hist ++ [(user_text, pyStrip r)])
      else (Option.none, hist)
  | RemoteOutcome.exn _ => (Option.none, hist)

/-- `APIManager.get_conversation_history`. -/
def get_conversation_history (hist : Hist) : String :=
  if hist = [] then "Ready..."
  else String.intercalate "\n---\n"
    (hist.map fun qa =>
      "Q: " ++ (if pyStrip qa.1 ≠ "" then qa.1 else "[No question]") ++ "\nA: " ++ qa.2)

/-- Result of one dispatched analysis: remote calls performed, strings put on
`text_queue`, the conversation history afterwards, and the final `app_state`. -/
structure DispOut where
  calls : List RemoteCall
  published : List String
  hist : Hist
  state : AppState
deriving Repr, DecidableEq

/-- `send_to_openai(image, text)`: no image means an error message and no
call; otherwise one `analyze_screen` call, publishing the formatted history
and state `ready` on a (truthy) response, or `"No response from OpenAI"` and
state `error` on `None`. -/
def send_to_openai (img : Option Nat) (text : String) (o : RemoteOutcome)
    (hist : Hist) (st : AppState) : DispOut :=
  match img with
  | Option.none =>
      { calls := [], published := ["Error: No screen capture available"],
        hist := hist, state := st }
  | some i =>
      let pr := analyze_screen hist text o
      match pr.1 with
      | some _ =>
          { calls := [RemoteCall.screen i text],
            published := [get_conversation_history pr.2], hist := pr.2,
            state := AppState.ready }
      | Option.none =>
          { calls := [RemoteCall.screen i text],
            published := ["No response from OpenAI"], hist := pr.2,
            state := AppState.error }

/-- `send_text_to_openai(text)`. -/
def send_text_to_openai (text : String) (o : RemoteOutcome) (hist : Hist)
    (st : AppState) : DispOut :=
  if pyStrip text = "" then
    { calls := [], published := ["Error: No text provided"], hist := hist, state := st }
  else
    let pr := analyze_text_only hist text o
    match pr.1 with
    | some _ =>
        { calls := [RemoteCall.textOnly text],
          published := [get_conversation_history pr.2], hist := pr.2,
          state := AppState.ready }
    | Option.none =>
        { calls := [RemoteCall.textOnly text],
          published := ["No response from OpenAI"], hist := pr.2,
          state := AppState.error }

/-- `send_multiple_screenshots_to_openai(user_text)`: uses every image of the
current collection. -/
def send_multiple_screenshots_to_openai (collection : List Nat) (text : String)
    (o : RemoteOutcome) (hist : Hist) (st : AppState) : DispOut :=
  if collection = [] then
    { calls := [], published := ["Error: No screenshots available"],
      hist := hist, state := st }
  else
    let pr := analyze_multiple_screens collection hist text o
    match pr.1 with
    | some _ =>
        { calls := [RemoteCall.multiScreens collection text],
          published := [get_conversation_history pr.2], hist := pr.2,
          state := AppState.ready }
    | Option.none =>
        { calls := [RemoteCall.multiScreens collection text],
          published := ["No response from OpenAI"], hist := pr.2,
          state := AppState.error }

/-- Message published when there is nothing to analyze. -/
def nothingToAnalyzeMsg : String := "提示：请先录音(Ctrl+V)或截图(Ctrl+H)，然后按Ctrl+Enter分析"

/-- Message published when the fallback screen capture fails in screen-only
mode. -/
def captureFailMsg : String := "错误：无法截取屏幕"

/-- `process_openai()`: the dispatcher.  `fresh` is the outcome of the
fallback `capture_screen()`, consulted only when the selected mode needs a
single screenshot and no image is cached. -/
def process_openai (g : GState) (fresh : Option Nat) (o : RemoteOutcome)
    (hist : Hist) (st : AppState) : DispOut :=
  let user_text := pyStrip g.transcript
  let has_voice := user_text ≠ ""
  let has_screen := g.flag
  let screenshot_count := g.collection.length
  if has_voice ∧ has_screen then
    if 1 < screenshot_count then
      send_multiple_screenshots_to_openai g.collection user_text o hist st
    else
      match g.currentShot with
      | some img => send_to_openai (some img) user_text o hist st
      | Option.none =>
          match fresh with
          | some img => send_to_openai (some img) user_text o hist st
          | Option.none => send_text_to_openai user_text o hist st
  else if has_voice then
    send_text_to_openai user_text o hist st
  else if has_screen then
    if 1 < screenshot_count then
      send_multiple_screenshots_to_openai g.collection "" o hist st
    else
      match g.currentShot with
      | some img => send_to_openai (some img) "" o hist st
      | Option.none =>
          match fresh with
          | some img => send_to_openai (some img) "" o hist st
          | Option.none =>
              { calls := [], published := [captureFailMsg], hist := hist,
                state := AppState.error }
  else
    { calls := [], published := [nothingToAnalyzeMsg], hist := hist,
      state := AppState.ready }

/-! ### Mode selection -/

/-- The six dispatch outcomes of §4.4's decision table. -/
inductive Mode where
  | multiVoice
  | multimodal
  | voiceOnly
  | multiScreen
  | screenOnly
  | nothing
deriving Repr, DecidableEq

/-- Mode selection exactly as branched in `process_openai`. -/
def selectMode (transcript : String) (flag : Bool) (count : Nat) : Mode :=
  let has_voice := pyStrip transcript ≠ ""
  if has_voice ∧ flag = true then
    if 1 < count then Mode.multiVoice else Mode.multimodal
  else if has_voice then Mode.voiceOnly
  else if flag = true then
    if 1 < count then Mode.multiScreen else Mode.screenOnly
  else Mode.nothing

/-- Modelled from the spec: the §4.4 decision table as written, a pure
function of (transcript non-empty?, screenshot count), rows in precedence
order. -/
def specMode (hasTranscript : Bool) (count : Nat) : Mode :=
  if hasTranscript = true ∧ 1 ≤ count ∧ 1 < count then Mode.multiVoice
  else if hasTranscript = true ∧ count = 1 then Mode.multimodal
  else if hasTranscript = true ∧ count = 0 then Mode.voiceOnly
  else if hasTranscript = false ∧ 2 ≤ count then Mode.multiScreen
  else if hasTranscript = false ∧ count = 1 then Mode.screenOnly
  else Mode.nothing

/-! ### Single-flight (`global_key_handler` Ctrl+Enter and the asyncio loop)

The Ctrl+Enter branch of `global_key_handler` (line 1840) unconditionally
executes `asyncio.run_coroutine_threadsafe(process_openai(), loop)`: there is
no in-flight guard, so every Analyze command enqueues one `process_openai`
task on the event loop.  The loop runs tasks one at a time to completion:
`process_openai` and the API-manager coroutines contain no true suspension
point (the OpenAI call and the stream iteration are synchronous), so a task
never yields mid-execution and the next queued task starts only after the
current one finishes. -/

structure Sched where
  keys : Nat
  pending : Nat
  running : Nat
  done : Nat
  calls : Nat
deriving Repr, DecidableEq

inductive SEvt where
  | analyzeKey
  | start
  | finish
deriving Repr, DecidableEq

/-- One scheduler transition; `k` is the number of remote calls one completed
`process_openai` task performs.  `analyzeKey` is the unguarded Ctrl+Enter
handler; `start`/`finish` are the event loop picking up, and running to
completion, one queued task. -/
def schedStep (k : Nat) (s : Sched) : SEvt → Option Sched
  | SEvt.analyzeKey => some { s with keys := s.keys + 1, pending := s.pending + 1 }
  | SEvt.start =>
      if s.running = 0 ∧ 0 < s.pending then
        some { s with pending := s.pending - 1, running := s.running + 1 }
      else Option.none
  | SEvt.finish =>
      if 0 < s.running then
        some { s with running := s.running - 1, done := s.done + 1,
                      calls := s.calls + k }
      else Option.none

/-- Initial scheduler state: nothing queued, nothing running. -/
def schedInit : Sched := { keys := 0, pending := 0, running := 0, done := 0, calls := 0 }

/-- Scheduler state after a feasible event trace. -/
def runSched (k : Nat) (evts : List SEvt) : Option Sched :=
  evts.foldlM (schedStep k) schedInit

/-- States the dispatcher scheduler can reach. -/
inductive SchedReach (k : Nat) : Sched → Prop where
  | init : SchedReach k schedInit
  | next {s s' : Sched} {e : SEvt} :
      SchedReach k s → schedStep k s e = some s' → SchedReach k s'

/-- A sequence of `save_screenshot` calls (each a Ctrl+H with a successful
capture). -/
def addShots (N : Nat) (g : GState) (imgs : List Nat) : GState :=
  imgs.foldl (save_screenshot N) g

theorem dropWhile_head_false (p : α → Bool) (l : List α) :
    ∀ x ∈ (l.dropWhile p).head?, p x = false := by
  induction l with
  | nil => simp [List.dropWhile]
  | cons a l ih =>
    by_cases h : p a
    · simpa [List.dropWhile, h] using ih
    · simp only [List.dropWhile, h]
      intro x hx
      simp only [List.head?, Option.mem_def, Option.some.injEq] at hx
      simpa [← hx] using h

theorem dropWhile_eq_self_of_head (p : α → Bool) (l : List α)
    (h : ∀ x ∈ l.head?, p x = false) : l.dropWhile p = l := by
  cases l with
  | nil => rfl
  | cons a l =>
    have : p a = false := h a (by simp)
    simp [List.dropWhile, this]

theorem dropWhile_idem (p : α → Bool) (l : List α) :
    (l.dropWhile p).dropWhile p = l.dropWhile p :=
  dropWhile_eq_self_of_head p _ (dropWhile_head_false p l)

theorem getLast?_dropWhile (p : α → Bool) (l : List α)
    (h : l.dropWhile p ≠ []) : (l.dropWhile p).getLast? = l.getLast? := by
  induction l with
  | nil => simp [List.dropWhile] at h
  | cons a l ih =>
    by_cases hp : p a
    · simp only [List.dropWhile, hp] at h ⊢
      have hl : l ≠ [] := by
        intro he; rw [he] at h; simp [List.dropWhile] at h
      obtain ⟨b, m, rfl⟩ := List.exists_cons_of_ne_nil hl
      rw [ih h, List.getLast?_cons_cons]
    · simp [List.dropWhile, hp]

/-- `strip` is idempotent: stripping a stripped list changes nothing. -/
theorem stripChars_idem (l : List Char) : stripChars (stripChars l) = stripChars l := by
  unfold stripChars
  set A := l.dropWhile isWs with hA
  set C := A.reverse.dropWhile isWs with hC
  have hheadA : ∀ x ∈ A.head?, isWs x = false := dropWhile_head_false isWs l
  have hstep1 : C.reverse.dropWhile isWs = C.reverse := by
    apply dropWhile_eq_self_of_head
    intro x hx
    rw [List.head?_reverse] at hx
    have hCne : C ≠ [] := by
      intro he; rw [he] at hx; simp at hx
    have hlast : C.getLast? = A.reverse.getLast? := getLast?_dropWhile isWs A.reverse hCne
    rw [hlast, List.getLast?_reverse] at hx
    exact hheadA x hx
  rw [hstep1, List.reverse_reverse, dropWhile_idem]

/-- `pyStrip` is idempotent. -/
theorem pyStrip_idem (s : String) : pyStrip (pyStrip s) = pyStrip s := by
  simp [pyStrip, stripChars_idem]

theorem workerStep_buffer_lt (c b : Nat) (hb : 0 < b) (s : WorkerState) :
    (workerStep c b s).buffer.length * c < b := by
  unfold workerStep
  by_cases hf : b ≤ (s.buffer ++ [c]).length * c
  · rw [if_pos hf]; simpa using hb
  · rw [if_neg hf]; exact Nat.lt_of_not_le hf

theorem runWorker_buffer_lt (c b : Nat) (hb : 0 < b) (n : Nat) :
    (runWorker c b n).buffer.length * c < b := by
  cases n with
  | zero => simpa [runWorker] using hb
  | succ n =>
    have : runWorker c b (n + 1) = workerStep c b (runWorker c b n) := by
      simp [runWorker, List.replicate_succ', List.foldl_append]
    rw [this]
    exact workerStep_buffer_lt c b hb _

theorem inv_init : Inv initState :=
  ⟨by simp [initState], Or.inl rfl, fun _ => rfl, by simp [initState]⟩

theorem save_collection_def (N : Nat) (g : GState) (img : Nat) :
    (save_screenshot N g img).collection =
      if N < (g.collection ++ [img]).length then (g.collection ++ [img]).drop 1
      else g.collection ++ [img] := rfl

theorem save_collection_ne_nil (N : Nat) (hN : 0 < N) (g : GState) (img : Nat) :
    (save_screenshot N g img).collection ≠ [] := by
  rw [save_collection_def]
  split
  · rename_i h
    simp only [List.length_append, List.length_cons, List.length_nil] at h
    have : 0 < ((g.collection ++ [img]).drop 1).length := by
      rw [List.length_drop]
      simp only [List.length_append, List.length_cons, List.length_nil]
      omega
    exact List.ne_nil_of_length_pos this
  · simp

theorem save_index_def (N : Nat) (g : GState) (img : Nat) :
    (save_screenshot N g img).index =
      ((save_screenshot N g img).collection.length : Int) - 1 := rfl

theorem save_fields (N : Nat) (g : GState) (img : Nat) :
    (save_screenshot N g img).transcript = g.transcript ∧
    (save_screenshot N g img).flag = true ∧
    (save_screenshot N g img).currentShot = some img := ⟨rfl, rfl, rfl⟩

theorem inv_save (N : Nat) (hN : 0 < N) (g : GState) (hg : Inv g) (img : Nat) :
    Inv (save_screenshot N g img) := by
  have hne := save_collection_ne_nil N hN g img
  have hlen : 0 < (save_screenshot N g img).collection.length :=
    List.length_pos.mpr hne
  refine ⟨by simp [(save_fields N g img).2.1, hne], ?_, fun h => absurd h hne, fun _ => ?_⟩
  · rw [(save_fields N g img).1]
    exact hg.transcript_norm
  · rw [save_index_def]
    omega

theorem inv_clear_shots (g : GState) (hg : Inv g) : Inv (clear_all_screenshots g) := by
  unfold clear_all_screenshots
  split
  · exact hg
  · exact ⟨by simp, hg.transcript_norm, fun _ => rfl, fun h => absurd rfl h⟩

theorem inv_clear_all (g : GState) (hg : Inv g) : Inv (clear_all_command g) := by
  unfold clear_all_command clear_all_screenshots
  split
  · rename_i h
    simp only at h
    exact ⟨by simp [h], Or.inl rfl, fun _ => hg.index_empty h, fun hne => absurd h hne⟩
  · exact ⟨by simp, Or.inl rfl, fun _ => rfl, fun h => absurd rfl h⟩

theorem inv_next (g : GState) (hg : Inv g) : Inv (next_screenshot g).1 := by
  unfold next_screenshot
  by_cases h : g.collection = []
  · simpa [h] using hg
  · have hlen : (0 : Int) < (g.collection.length : Int) := by
      have := List.length_pos.mpr h
      omega
    rw [if_neg h]
    exact ⟨by simpa using hg.flag_iff, hg.transcript_norm, fun hc => absurd hc h,
      fun _ => ⟨Int.emod_nonneg _ (by omega), Int.emod_lt_of_pos _ hlen⟩⟩

theorem inv_prev (g : GState) (hg : Inv g) : Inv (prev_screenshot g).1 := by
  unfold prev_screenshot
  by_cases h : g.collection = []
  · simpa [h] using hg
  · have hlen : (0 : Int) < (g.collection.length : Int) := by
      have := List.length_pos.mpr h
      omega
    rw [if_neg h]
    exact ⟨by simpa using hg.flag_iff, hg.transcript_norm, fun hc => absurd hc h,
      fun _ => ⟨Int.emod_nonneg _ (by omega), Int.emod_lt_of_pos _ hlen⟩⟩

theorem inv_transcribe (g : GState) (hg : Inv g) (segs : List String) :
    Inv (apply_transcript g segs) := by
  by_cases h : joinSegments segs ≠ "" ∧ 2 < (joinSegments segs).length
  · have he : apply_transcript g segs = { g with transcript := joinSegments segs } := by
      simp [apply_transcript, h]
    rw [he]
    exact ⟨hg.flag_iff, Or.inr ⟨by
        simpa [joinSegments] using pyStrip_idem (String.intercalate " " segs), h.2⟩,
      hg.index_empty, hg.index_bounds⟩
  · have he : apply_transcript g segs = g := by simp [apply_transcript, h]
    rw [he]
    exact hg

theorem inv_step (N : Nat) (hN : 0 < N) (g : GState) (hg : Inv g) (c : Cmd) :
    Inv (step N g c) := by
  cases c with
  | shot img => exact inv_save N hN g hg img
  | shotFail => exact hg
  | clearAll => exact inv_clear_all g hg
  | clearShots => exact inv_clear_shots g hg
  | nextShot => exact inv_next g hg
  | prevShot => exact inv_prev g hg
  | transcribe segs => exact inv_transcribe g hg segs

theorem inv_foldl (N : Nat) (hN : 0 < N) (cs : List Cmd) (g : GState) (hg : Inv g) :
    Inv (cs.foldl (step N) g) := by
  induction cs generalizing g with
  | nil => exact hg
  | cons c cs ih => exact ih _ (inv_step N hN g hg c)

/-- Every reachable state of the command loop satisfies the invariant. -/
theorem inv_reachable (N : Nat) (hN : 0 < N) (g : GState) (hg : Reachable N g) :
    Inv g := by
  obtain ⟨cs, rfl⟩ := hg
  exact inv_foldl N hN cs initState inv_init

/-- On reachable states the code's voice test (`bool(transcript.strip())`)
agrees with plain non-emptiness of the transcript. -/
theorem reachable_strip_iff (N : Nat) (hN : 0 < N) (g : GState)
    (hg : Reachable N g) : pyStrip g.transcript ≠ "" ↔ g.transcript ≠ "" := by
  rcases (inv_reachable N hN g hg).transcript_norm with h | ⟨h, _⟩
  · simp [h, pyStrip, stripChars]
  · rw [h]

/-- `process_openai` factored through its mode selection: the dispatch is the
mode-indexed send call, with the synchronous re-capture fallback in the two
single-screenshot modes. -/
theorem process_openai_eq (g : GState) (fresh : Option Nat) (o : RemoteOutcome)
    (hist : Hist) (st : AppState) :
    process_openai g fresh o hist st =
      match selectMode g.transcript g.flag g.collection.length with
      | Mode.multiVoice =>
          send_multiple_screenshots_to_openai g.collection (pyStrip g.transcript) o hist st
      | Mode.multimodal =>
          match g.currentShot with
          | some img => send_to_openai (some img) (pyStrip g.transcript) o hist st
          | Option.none =>
              match fresh with
              | some img => send_to_openai (some img) (pyStrip g.transcript) o hist st
              | Option.none => send_text_to_openai (pyStrip g.transcript) o hist st
      | Mode.voiceOnly => send_text_to_openai (pyStrip g.transcript) o hist st
      | Mode.multiScreen => send_multiple_screenshots_to_openai g.collection "" o hist st
      | Mode.screenOnly =>
          match g.currentShot with
          | some img => send_to_openai (some img) "" o hist st
          | Option.none =>
              match fresh with
              | some img => send_to_openai (some img) "" o hist st
              | Option.none =>
                  { calls := [], published := [captureFailMsg], hist := hist,
                    state := AppState.error }
      | Mode.nothing =>
          { calls := [], published := [nothingToAnalyzeMsg], hist := hist,
            state := AppState.ready } := by
  unfold process_openai selectMode
  by_cases hv : pyStrip g.transcript ≠ "" <;> by_cases hf : g.flag = true <;>
    by_cases h1 : 1 < g.collection.length <;>
      cases g.currentShot <;> cases fresh <;> simp [hv, hf, h1]

theorem send_to_openai_calls (i : Nat) (text : String) (o : RemoteOutcome)
    (hist : Hist) (st : AppState) :
    (send_to_openai (some i) text o hist st).calls = [RemoteCall.screen i text] := by
  unfold send_to_openai
  rcases h : (analyze_screen hist text o).1 with - | r <;> simp [h]

theorem send_text_to_openai_calls (text : String) (o : RemoteOutcome)
    (hist : Hist) (st : AppState) :
    (send_text_to_openai text o hist st).calls
      = if pyStrip text = "" then [] else [RemoteCall.textOnly text] := by
  unfold send_text_to_openai
  by_cases he : pyStrip text = ""
  · simp [he]
  · rcases h : (analyze_text_only hist text o).1 with - | r <;> simp [he, h]

theorem send_multiple_calls (collection : List Nat) (text : String)
    (o : RemoteOutcome) (hist : Hist) (st : AppState) :
    (send_multiple_screenshots_to_openai collection text o hist st).calls
      = if collection = [] then [] else [RemoteCall.multiScreens collection text] := by
  unfold send_multiple_screenshots_to_openai
  by_cases he : collection = []
  · simp [he]
  · rcases h : (analyze_multiple_screens collection hist text o).1 with - | r <;>
      simp [he, h]

/-- Per dispatch, at most one remote call is performed, and which calls are
performed does not depend on the incoming application state. -/
theorem process_openai_calls_len (g : GState) (fresh : Option Nat)
    (o : RemoteOutcome) (hist : Hist) (st st' : AppState) :
    (process_openai g fresh o hist st).calls.length ≤ 1 ∧
    (process_openai g fresh o hist st).calls
      = (process_openai g fresh o hist st').calls := by
  rw [process_openai_eq g fresh o hist st, process_openai_eq g fresh o hist st']
  rcases selectMode g.transcript g.flag g.collection.length <;>
    first
      | (constructor <;> simp [send_multiple_calls] <;> split <;> simp)
      | (cases g.currentShot <;> cases fresh <;>
          constructor <;>
            simp [send_to_openai_calls, send_text_to_openai_calls] <;> split <;> simp)

theorem addShots_collection (N : Nat) (imgs : List Nat) (g : GState)
    (h : g.collection.length ≤ N) :
    (addShots N g imgs).collection
      = (g.collection ++ imgs).drop ((g.collection.length + imgs.length) - N) := by
  induction imgs generalizing g with
  | nil =>
    simp [addShots, Nat.sub_eq_zero_of_le h]
  | cons i rest ih =>
    have hstep : addShots N g (i :: rest) = addShots N (save_screenshot N g i) rest := rfl
    rw [hstep]
    by_cases h1 : N < (g.collection ++ [i]).length
    · have hNlen : g.collection.length = N := by
        simp only [List.length_append, List.length_cons, List.length_nil] at h1
        omega
      have hcol : (save_screenshot N g i).collection = (g.collection ++ [i]).drop 1 := by
        rw [save_collection_def, if_pos h1]
      have hlen2 : (save_screenshot N g i).collection.length = N := by
        rw [hcol, List.length_drop]
        simp [hNlen]
      rw [ih (save_screenshot N g i) (le_of_eq hlen2), hlen2, hcol]
      have hd : ((g.collection ++ [i]) ++ rest).drop 1 = (g.collection ++ [i]).drop 1 ++ rest :=
        List.drop_append_of_le_length (by simp)
      rw [← hd, List.drop_drop, List.append_assoc, List.singleton_append, hNlen]
      congr 1
      simp only [List.length_cons]
      omega
    · have hcol : (save_screenshot N g i).collection = g.collection ++ [i] := by
        rw [save_collection_def, if_neg h1]
      have hlen2 : (save_screenshot N g i).collection.length ≤ N := by
        simp only [List.length_append, List.length_cons, List.length_nil] at h1
        rw [hcol]
        simp only [List.length_append, List.length_cons, List.length_nil]
        omega
      rw [ih (save_screenshot N g i) hlen2, hcol, List.append_assoc, List.singleton_append]
      congr 1
      simp only [List.length_append, List.length_cons, List.length_nil]
      omega

theorem addShots_index (N : Nat) (g : GState) (imgs : List Nat) (h : imgs ≠ []) :
    (addShots N g imgs).index = ((addShots N g imgs).collection.length : Int) - 1 := by
  induction imgs generalizing g with
  | nil => exact absurd rfl h
  | cons i rest ih =>
    cases rest with
    | nil => exact save_index_def N g i
    | cons j rest2 => exact ih (save_screenshot N g i) (by simp)

theorem addShots_currentShot (N : Nat) (g : GState) (imgs : List Nat) (h : imgs ≠ []) :
    (addShots N g imgs).currentShot = some (imgs.getLast h) := by
  induction imgs generalizing g with
  | nil => exact absurd rfl h
  | cons i rest ih =>
    cases rest with
    | nil => rfl
    | cons j rest2 =>
      rw [show addShots N g (i :: j :: rest2) = addShots N (save_screenshot N g i) (j :: rest2)
        from rfl, ih (save_screenshot N g i) (by simp)]
      rfl

/-- C3: bounded FIFO screenshot history — for every sequence of adds on a
history with capacity `N`, the length never exceeds `N`; the retained records
are exactly the last `N` inserted, in order (head evicted on overflow, tail
newest); and each add leaves the cursor at the newest index. -/
theorem C3_bounded_fifo_history (N : Nat) (imgs : List Nat) :
    (addShots N initState imgs).collection = imgs.drop (imgs.length - N) ∧
    (addShots N initState imgs).collection.length ≤ N ∧
    (imgs ≠ [] → (addShots N initState imgs).index
        = ((addShots N initState imgs).collection.length : Int) - 1) := by
  have hc := addShots_collection N imgs initState (by simp [initState])
  have hc' : (addShots N initState imgs).collection = imgs.drop (imgs.length - N) := by
    simpa [initState] using hc
  refine ⟨hc', ?_, fun h => addShots_index N initState imgs h⟩
  rw [hc', List.length_drop]
  omega

/-- C3 witness: capacity 5, seven adds — length 5, last five retained, cursor
on the newest. -/
theorem C3_bounded_fifo_history_witness :
    ([1, 2, 3, 4, 5, 6, 7] : List Nat) ≠ [] ∧
    (addShots 5 initState [1, 2, 3, 4, 5, 6, 7]).collection = [3, 4, 5, 6, 7] ∧
    (addShots 5 initState [1, 2, 3, 4, 5, 6, 7]).index
      = ((addShots 5 initState [1, 2, 3, 4, 5, 6, 7]).collection.length : Int) - 1 := by
  refine ⟨by decide, ?_, (C3_bounded_fifo_history 5 [1, 2, 3, 4, 5, 6, 7]).2.2 (by decide)⟩
  have h := (C3_bounded_fifo_history 5 [1, 2, 3, 4, 5, 6, 7]).1
  simpa using h

/-- C4: cursor navigation — on a non-empty history `next()`/`prev()` move the
cursor by `+1`/`-1` modulo the length; on an empty history both are no-ops
that signal "nothing to browse"; with capacity 5, after adding `s1..s7` the
history holds `s3..s7` with the cursor on `s7`, and one `next()` wraps the
cursor to `s3`. -/
theorem C4_cursor_navigation :
    (∀ g : GState, g.collection ≠ [] →
        (next_screenshot g).1.index = (g.index + 1) % (g.collection.length : Int) ∧
        (prev_screenshot g).1.index = (g.index - 1) % (g.collection.length : Int) ∧
        (next_screenshot g).1.collection = g.collection ∧
        (prev_screenshot g).1.collection = g.collection) ∧
    (∀ g : GState, g.collection = [] →
        next_screenshot g = (g, nothingToBrowseMsg) ∧
        prev_screenshot g = (g, nothingToBrowseMsg)) ∧
    (addShots 5 initState [1, 2, 3, 4, 5, 6, 7]).collection = [3, 4, 5, 6, 7] ∧
    (addShots 5 initState [1, 2, 3, 4, 5, 6, 7]).currentShot = some 7 ∧
    (addShots 5 initState [1, 2, 3, 4, 5, 6, 7]).index = 4 ∧
    (next_screenshot (addShots 5 initState [1, 2, 3, 4, 5, 6, 7])).1.index = 0 ∧
    (next_screenshot (addShots 5 initState [1, 2, 3, 4, 5, 6, 7])).1.currentShot
      = some 3 := by
  refine ⟨?_, ?_, by decide, by decide, by decide, by decide, by decide⟩
  · intro g h
    unfold next_screenshot prev_screenshot
    rw [if_neg h, if_neg h]
    exact ⟨rfl, rfl, rfl, rfl⟩
  · intro g h
    unfold next_screenshot prev_screenshot
    rw [if_pos h, if_pos h]
    exact ⟨rfl, rfl⟩

/-- C4 witness: on the concrete two-element history with cursor 0, `next()`
moves to 1 and `prev()` wraps to 1. -/
theorem C4_cursor_navigation_witness :
    (next_screenshot ⟨"", [10, 20], 0, some 20, true⟩).1.index = 1 ∧
    (prev_screenshot ⟨"", [10, 20], 0, some 20, true⟩).1.index = 1 := by
  have h := C4_cursor_navigation.1 ⟨"", [10, 20], 0, some 20, true⟩ (by decide)
  exact ⟨by rw [h.1]; decide, by rw [h.2.1]; decide⟩

/-- C5: transcription acceptance — the window's segment texts are joined with
a single space (and stripped, as the source does); a joined text of length at
most 2 is discarded, leaving the transcript and the callback log untouched;
otherwise the single current transcript is overwritten (not appended to) and
the callback is invoked exactly once with the new text. -/
theorem C5_transcription_acceptance (segs : List String) (s : TransState) :
    ((joinSegments segs).length ≤ 2 → process_audio_result segs s = s) ∧
    (2 < (joinSegments segs).length →
        process_audio_result segs s
          = { transcript := joinSegments segs,
              callbackCalls := s.callbackCalls ++ [joinSegments segs] }) := by
  constructor
  · intro h
    have hcond : ¬(joinSegments segs ≠ "" ∧ 2 < (joinSegments segs).length) := by
      rintro ⟨-, h2⟩
      omega
    simp [process_audio_result, hcond]
  · intro h
    have hne : joinSegments segs ≠ "" := by
      intro he
      rw [he] at h
      exact absurd h (by decide)
    simp [process_audio_result, hne, h]

/-- C5 witness: `["hello", "world"]` joins to `"hello world"`, is accepted,
overwrites the transcript and triggers one callback. -/
theorem C5_transcription_acceptance_witness :
    2 < (joinSegments ["hello", "world"]).length ∧
    process_audio_result ["hello", "world"] ⟨"old", []⟩
      = { transcript := "hello world", callbackCalls := ["hello world"] } := by
  refine ⟨by decide, ?_⟩
  have h := (C5_transcription_acceptance ["hello", "world"] ⟨"old", []⟩).2 (by decide)
  rw [h]
  decide

/-- C6: accumulator flush invariant — whatever the chunk size, after any
number of reads the accumulated frame count is below the threshold (so in
particular right after every flush); a step whose accumulated count reaches
the threshold flushes the whole batch as one transcription call; and a
4-second window followed by a 2-second window against a 5-second threshold
(two 2-second reads, then one more) triggers exactly one call consuming all
6 seconds. -/
theorem C6_accumulator_flush (c b : Nat) (hb : 0 < b) :
    (∀ n, (runWorker c b n).buffer.length * c < b) ∧
    (∀ s : WorkerState, b ≤ (s.buffer.length + 1) * c →
        workerStep c b s
          = { buffer := [], flushes := s.flushes ++ [(s.buffer ++ [c]).sum] }) ∧
    (∀ s : WorkerState, (s.buffer.length + 1) * c < b →
        workerStep c b s = { buffer := s.buffer ++ [c], flushes := s.flushes }) ∧
    runWorker 2 5 3 = { buffer := [], flushes := [6] } := by
  refine ⟨fun n => runWorker_buffer_lt c b hb n, ?_, ?_, by decide⟩
  · intro s h
    unfold workerStep
    rw [if_pos (by simpa using h)]
  · intro s h
    unfold workerStep
    rw [if_neg (by simpa using Nat.not_le_of_lt h)]

/-- C6 witness: threshold 5, chunk 2 — after two reads the buffer holds 4
frames (no flush yet), the third read flushes all 6 in one call. -/
theorem C6_accumulator_flush_witness :
    (0 : Nat) < 5 ∧ runWorker 2 5 3 = { buffer := [], flushes := [6] } :=
  ⟨by decide, (C6_accumulator_flush 2 5 (by decide)).2.2.2⟩

/-- C7: ContextState invariant and atomic clear — on every reachable state
the code's voice test (`bool(transcript.strip())`) agrees with plain
non-emptiness, the screenshot flag holds exactly when the collection is
non-empty, no command other than the two clear commands can lower the flag,
and the clear-all command empties transcript, flag and collection in its one
step. -/
theorem C7_context_state_invariant (N : Nat) (hN : 0 < N) (g : GState)
    (hg : Reachable N g) :
    ((pyStrip g.transcript ≠ "") ↔ g.transcript ≠ "") ∧
    (g.flag = true ↔ g.collection ≠ []) ∧
    (∀ c : Cmd, c ≠ Cmd.clearAll → c ≠ Cmd.clearShots → g.flag = true →
        (step N g c).flag = true) ∧
    (step N g Cmd.clearAll).transcript = "" ∧
    (step N g Cmd.clearAll).flag = false ∧
    (step N g Cmd.clearAll).collection = [] := by
  have hinv := inv_reachable N hN g hg
  refine ⟨reachable_strip_iff N hN g hg, hinv.flag_iff, ?_, ?_, ?_, ?_⟩
  · intro c hca hcs hflag
    cases c with
    | shot img => rfl
    | shotFail => exact hflag
    | clearAll => exact absurd rfl hca
    | clearShots => exact absurd rfl hcs
    | nextShot =>
      show (next_screenshot g).1.flag = true
      unfold next_screenshot
      by_cases h : g.collection = []
      · rw [if_pos h]; exact hflag
      · rw [if_neg h]; exact hflag
    | prevShot =>
      show (prev_screenshot g).1.flag = true
      unfold prev_screenshot
      by_cases h : g.collection = []
      · rw [if_pos h]; exact hflag
      · rw [if_neg h]; exact hflag
    | transcribe segs =>
      show (apply_transcript g segs).flag = true
      by_cases h : joinSegments segs ≠ "" ∧ 2 < (joinSegments segs).length
      · simpa [apply_transcript, h] using hflag
      · simpa [apply_transcript, h] using hflag
  · show (clear_all_command g).transcript = ""
    unfold clear_all_command clear_all_screenshots
    split <;> rfl
  · show (clear_all_command g).flag = false
    unfold clear_all_command clear_all_screenshots
    split <;> rfl
  · show (clear_all_command g).collection = []
    unfold clear_all_command clear_all_screenshots
    split
    · rename_i h
      exact h
    · rfl

/-- C7 witness: the initial state is reachable and satisfies both halves of
the invariant. -/
theorem C7_context_state_invariant_witness :
    (0 : Nat) < 5 ∧ Reachable 5 initState ∧
    ((pyStrip initState.transcript ≠ "") ↔ initState.transcript ≠ "") ∧
    (initState.flag = true ↔ initState.collection ≠ []) :=
  ⟨by decide, ⟨[], rfl⟩,
    (C7_context_state_invariant 5 (by decide) initState ⟨[], rfl⟩).1,
    (C7_context_state_invariant 5 (by decide) initState ⟨[], rfl⟩).2.1⟩

/-- C10: cursor validity — after every screenshot operation, i.e. on every
reachable state, a non-empty collection has `0 ≤ index < length` (so indexing
at the cursor is in bounds), an empty collection has cursor `0`, and both
clear commands leave the cursor at `0`. -/
theorem C10_cursor_validity (N : Nat) (hN : 0 < N) (g : GState)
    (hg : Reachable N g) :
    (g.collection ≠ [] → 0 ≤ g.index ∧ g.index.toNat < g.collection.length) ∧
    (g.collection = [] → g.index = 0) ∧
    (step N g Cmd.clearAll).index = 0 ∧
    (step N g Cmd.clearShots).index = 0 := by
  have hinv := inv_reachable N hN g hg
  refine ⟨?_, hinv.index_empty, ?_, ?_⟩
  · intro h
    have hb := hinv.index_bounds h
    refine ⟨hb.1, ?_⟩
    omega
  · show (clear_all_command g).index = 0
    unfold clear_all_command clear_all_screenshots
    split
    · rename_i h
      exact hinv.index_empty h
    · rfl
  · show (clear_all_screenshots g).index = 0
    unfold clear_all_screenshots
    split
    · rename_i h
      exact hinv.index_empty h
    · rfl

/-- C10 witness: a reachable state with two screenshots has its cursor in
bounds. -/
theorem C10_cursor_validity_witness :
    Reachable 5 (run 5 [Cmd.shot 10, Cmd.shot 20]) ∧
    (run 5 [Cmd.shot 10, Cmd.shot 20]).collection ≠ [] ∧
    0 ≤ (run 5 [Cmd.shot 10, Cmd.shot 20]).index ∧
    (run 5 [Cmd.shot 10, Cmd.shot 20]).index.toNat
      < (run 5 [Cmd.shot 10, Cmd.shot 20]).collection.length := by
  refine ⟨⟨[Cmd.shot 10, Cmd.shot 20], rfl⟩, by decide, ?_⟩
  have h := (C10_cursor_validity 5 (by decide) (run 5 [Cmd.shot 10, Cmd.shot 20])
    ⟨[Cmd.shot 10, Cmd.shot 20], rfl⟩).1 (by decide)
  exact h

/-- Mode selection agrees with the spec's decision table whenever the voice
test is faithful to transcript non-emptiness and the flag mirrors the count. -/
theorem selectMode_eq_specMode (t : String) (flag : Bool) (count : Nat)
    (hstrip : (pyStrip t ≠ "") ↔ t ≠ "") (hflag : flag = true ↔ count ≠ 0) :
    selectMode t flag count = specMode (decide (t ≠ "")) count := by
  by_cases hv : t ≠ ""
  · have hpv : pyStrip t ≠ "" := hstrip.mpr hv
    by_cases h0 : count = 0
    · have hf : flag = false := by
        cases hfv : flag with
        | false => rfl
        | true => exact absurd (hflag.mp hfv) (not_not_intro h0)
      simp [selectMode, specMode, hpv, hv, hf, h0]
    · have hf : flag = true := hflag.mpr h0
      by_cases h1 : 1 < count
      · simp [selectMode, specMode, hpv, hv, hf, h1, Nat.one_le_iff_ne_zero.mpr h0]
      · have hc1 : count = 1 := by omega
        simp [selectMode, specMode, hpv, hv, hf, hc1]
  · have ht : t = "" := not_not.mp hv
    have hpv : ¬(pyStrip t ≠ "") := fun hc => hv (hstrip.mp hc)
    by_cases h0 : count = 0
    · have hf : flag = false := by
        cases hfv : flag with
        | false => rfl
        | true => exact absurd (hflag.mp hfv) (not_not_intro h0)
      simp [selectMode, specMode, hpv, hv, hf, h0]
    · have hf : flag = true := hflag.mpr h0
      by_cases h1 : 1 < count
      · have h2 : 2 ≤ count := h1
        simp [selectMode, specMode, hpv, hv, hf, h1, h2]
      · have hc1 : count = 1 := by omega
        simp [selectMode, specMode, hpv, hv, hf, hc1]

/-- C2: mode selection is, on reachable states, a pure function of the pair
(transcript non-empty?, screenshot count), equal to the §4.4 precedence
table; and with empty transcript and zero screenshots the dispatcher makes no
remote call, surfaces the "nothing to analyze" message and returns to ready. -/
theorem C2_mode_selection (N : Nat) (hN : 0 < N) (g : GState)
    (hg : Reachable N g) :
    selectMode g.transcript g.flag g.collection.length
      = specMode (decide (g.transcript ≠ "")) g.collection.length ∧
    (g.transcript = "" → g.collection = [] →
        ∀ (fresh : Option Nat) (o : RemoteOutcome) (hist : Hist) (st : AppState),
          process_openai g fresh o hist st
            = { calls := [], published := [nothingToAnalyzeMsg], hist := hist,
                state := AppState.ready }) := by
  have hinv := inv_reachable N hN g hg
  have hflag : g.flag = true ↔ g.collection.length ≠ 0 := by
    rw [hinv.flag_iff]
    simp [List.length_eq_zero]
  constructor
  · exact selectMode_eq_specMode g.transcript g.flag g.collection.length
      (reachable_strip_iff N hN g hg) hflag
  · intro ht hc fresh o hist st
    have hf : g.flag = false := by
      cases hfv : g.flag with
      | false => rfl
      | true => exact absurd (hinv.flag_iff.mp hfv) (not_not_intro hc)
    rw [process_openai_eq,
      show selectMode g.transcript g.flag g.collection.length = Mode.nothing from by
        rw [ht, hf, hc]; decide]

/-- C2 witness: the initial state is reachable; its mode is `nothing` as the
table demands, and a dispatch there performs no call and reports nothing to
analyze. -/
theorem C2_mode_selection_witness :
    (0 : Nat) < 5 ∧ Reachable 5 initState ∧
    selectMode initState.transcript initState.flag initState.collection.length
      = specMode (decide (initState.transcript ≠ "")) initState.collection.length ∧
    process_openai initState Option.none (RemoteOutcome.ok "r") [] AppState.ready
      = { calls := [], published := [nothingToAnalyzeMsg], hist := [],
          state := AppState.ready } :=
  ⟨by decide, ⟨[], rfl⟩,
    (C2_mode_selection 5 (by decide) initState ⟨[], rfl⟩).1,
    (C2_mode_selection 5 (by decide) initState ⟨[], rfl⟩).2 rfl rfl
      Option.none (RemoteOutcome.ok "r") [] AppState.ready⟩

/-- C9: screenshot fallback re-capture — whenever the selected mode needs a
single screenshot (`has_screen` with at most one in the collection) and no
image is cached, the dispatcher uses the synchronously captured fresh image
for the request; if that capture also fails, the dispatch degrades to
voice-only analysis when the transcript is non-empty and otherwise fails with
the capture error. -/
theorem C9_fallback_recapture (g : GState) (fresh : Option Nat) (o : RemoteOutcome)
    (hist : Hist) (st : AppState) (hflag : g.flag = true)
    (hcnt : g.collection.length ≤ 1) (hshot : g.currentShot = Option.none) :
    (∀ i, fresh = some i →
        (process_openai g fresh o hist st).calls
          = [RemoteCall.screen i (pyStrip g.transcript)]) ∧
    (fresh = Option.none → pyStrip g.transcript ≠ "" →
        process_openai g fresh o hist st
          = send_text_to_openai (pyStrip g.transcript) o hist st) ∧
    (fresh = Option.none → pyStrip g.transcript = "" →
        process_openai g fresh o hist st
          = { calls := [], published := [captureFailMsg], hist := hist,
              state := AppState.error }) := by
  have h1 : ¬(1 < g.collection.length) := by omega
  by_cases hv : pyStrip g.transcript ≠ ""
  · have hm : selectMode g.transcript g.flag g.collection.length = Mode.multimodal := by
      simp [selectMode, hv, hflag, h1]
    refine ⟨?_, ?_, ?_⟩
    · intro i hi
      rw [process_openai_eq, hm, hshot, hi]
      exact send_to_openai_calls i (pyStrip g.transcript) o hist st
    · intro hf _
      rw [process_openai_eq, hm, hshot, hf]
    · intro _ hv2
      exact absurd hv2 hv
  · have hv0 : pyStrip g.transcript = "" := not_ne_iff.mp hv
    have hm : selectMode g.transcript g.flag g.collection.length = Mode.screenOnly := by
      simp [selectMode, hv0, hflag, h1]
    refine ⟨?_, ?_, ?_⟩
    · intro i hi
      rw [process_openai_eq, hm, hshot, hi, hv0]
      exact send_to_openai_calls i "" o hist st
    · intro _ hv2
      exact absurd hv2 hv
    · intro hf _
      rw [process_openai_eq, hm, hshot, hf]

/-- C9 witness: flag raised, empty collection, no cached image, fresh capture
succeeds with image 3 — the request uses image 3. -/
theorem C9_fallback_recapture_witness :
    (process_openai ⟨"", [], 0, Option.none, true⟩ (some 3) (RemoteOutcome.ok "hi")
        [] AppState.ready).calls
      = [RemoteCall.screen 3 ""] :=
  (C9_fallback_recapture ⟨"", [], 0, Option.none, true⟩ (some 3)
    (RemoteOutcome.ok "hi") [] AppState.ready rfl (by decide) rfl).1 3 rfl

/-- C8 counterexample: a screen-mode dispatch whose remote call raises
(`exn "boom"`) does *not* publish an error message and does *not* enter the
error state — `analyze_screen` converts the exception to a truthy error
string, so the dispatcher republishes the (empty) conversation history and
returns to `ready`, contradicting the claim as stated. -/
theorem C8_failure_handling_counterexample :
    process_openai ⟨"", [7], 0, some 7, true⟩ Option.none (RemoteOutcome.exn "boom")
        [] AppState.ready
      = { calls := [RemoteCall.screen 7 ""], published := ["Ready..."], hist := [],
          state := AppState.ready } := by
  decide

/-- C8 (amended): an *empty* remote result in a screen-mode dispatch, and a
failed remote call in a voice-only dispatch, publish "No response from
OpenAI" and move to the error state; a *failed* (exception-raising) remote
call in a screen-mode dispatch instead returns to `ready`; the error state is
purely informational (it never changes which calls a later dispatch makes)
and no dispatch ever performs more than one remote call (no retry). -/
theorem C8_failure_handling (img : Nat) (text e r : String) (hist : Hist)
    (st : AppState) :
    (pyStrip r = "" →
        send_to_openai (some img) text (RemoteOutcome.ok r) hist st
          = { calls := [RemoteCall.screen img text],
              published := ["No response from OpenAI"], hist := hist,
              state := AppState.error }) ∧
    (pyStrip text ≠ "" →
        send_text_to_openai text (RemoteOutcome.exn e) hist st
          = { calls := [RemoteCall.textOnly text],
              published := ["No response from OpenAI"], hist := hist,
              state := AppState.error }) ∧
    (send_to_openai (some img) text (RemoteOutcome.exn e) hist st).state
      = AppState.ready ∧
    (∀ (g : GState) (fresh : Option Nat) (o : RemoteOutcome) (st' : AppState),
        (process_openai g fresh o hist st).calls.length ≤ 1 ∧
        (process_openai g fresh o hist st).calls
          = (process_openai g fresh o hist st').calls) := by
  refine ⟨?_, ?_, ?_, fun g fresh o st' => process_openai_calls_len g fresh o hist st st'⟩
  · intro h
    unfold send_to_openai analyze_screen
    simp [h]
  · intro h
    unfold send_text_to_openai analyze_text_only
    simp [h]
  · unfold send_to_openai analyze_screen
    rfl

/-- C8 witness: a whitespace-only streamed response is treated as empty — the
dispatcher publishes the error text and enters the error state. -/
theorem C8_failure_handling_witness :
    pyStrip "   " = "" ∧
    send_to_openai (some 1) "q" (RemoteOutcome.ok "   ") [] AppState.ready
      = { calls := [RemoteCall.screen 1 "q"],
          published := ["No response from OpenAI"], hist := [],
          state := AppState.error } :=
  ⟨by decide, (C8_failure_handling 1 "q" "e" "   " [] AppState.ready).1 (by decide)⟩

/-- C1 counterexample: the Ctrl+Enter handler schedules `process_openai`
unconditionally, so two Analyze commands — even when the second arrives while
the first request is outstanding — yield two `AnalyzeContext` calls, not one:
the claimed drop of the second command does not happen (it is queued, as the
third conjunct shows: after `key, start, key` the second task is pending, not
discarded). -/
theorem C1_single_flight_counterexample :
    (process_openai ⟨"hi there", [], 0, Option.none, false⟩ Option.none
        (RemoteOutcome.ok "resp") [] AppState.ready).calls.length = 1 ∧
    runSched
        ((process_openai ⟨"hi there", [], 0, Option.none, false⟩ Option.none
            (RemoteOutcome.ok "resp") [] AppState.ready).calls.length)
        [SEvt.analyzeKey, SEvt.analyzeKey, SEvt.start, SEvt.finish, SEvt.start,
         SEvt.finish]
      = some { keys := 2, pending := 0, running := 0, done := 2, calls := 2 } ∧
    runSched 1 [SEvt.analyzeKey, SEvt.start, SEvt.analyzeKey]
      = some { keys := 2, pending := 1, running := 1, done := 0, calls := 0 } := by
  refine ⟨by decide, by decide, by decide⟩

/-- C1 (amended): Analyze commands are serialized, not single-flighted — in
every reachable scheduler state at most one analysis task is executing (the
event loop starts a queued task only when idle, and the coroutines run to
completion), the performed `AnalyzeContext` calls are exactly `k` per
completed task, and every Analyze command is accounted for as pending,
running or done: none is ignored. -/
theorem C1_serialized_dispatch (k : Nat) (s : Sched) (h : SchedReach k s) :
    s.running ≤ 1 ∧ s.calls = k * s.done ∧
    s.keys = s.pending + s.running + s.done := by
  induction h with
  | init => simp [schedInit]
  | next hr hstep ih =>
    rename_i s s' e
    obtain ⟨ih1, ih2, ih3⟩ := ih
    cases e with
    | analyzeKey =>
      obtain rfl := Option.some.inj hstep
      refine ⟨ih1, ih2, ?_⟩
      show s.keys + 1 = s.pending + 1 + s.running + s.done
      omega
    | start =>
      simp only [schedStep] at hstep
      split at hstep
      · rename_i hc
        obtain rfl := Option.some.inj hstep
        refine ⟨?_, ih2, ?_⟩
        · show s.running + 1 ≤ 1
          omega
        · show s.keys = s.pending - 1 + (s.running + 1) + s.done
          omega
      · simp at hstep
    | finish =>
      simp only [schedStep] at hstep
      split at hstep
      · rename_i hc
        obtain rfl := Option.some.inj hstep
        refine ⟨?_, ?_, ?_⟩
        · show s.running - 1 ≤ 1
          omega
        · show s.calls + k = k * (s.done + 1)
          rw [ih2, Nat.mul_succ]
        · show s.keys = s.pending + (s.running - 1) + (s.done + 1)
          omega
      · simp at hstep

/-- C1 witness: the state after `key, key, start` is reachable; the theorem
instantiated there. -/
theorem C1_serialized_dispatch_witness :
    ({ keys := 2, pending := 1, running := 1, done := 0, calls := 0 } : Sched).running
        ≤ 1 ∧
    ({ keys := 2, pending := 1, running := 1, done := 0, calls := 0 } : Sched).calls
      = 1 * ({ keys := 2, pending := 1, running := 1, done := 0,
               calls := 0 } : Sched).done ∧
    ({ keys := 2, pending := 1, running := 1, done := 0, calls := 0 } : Sched).keys
      = ({ keys := 2, pending := 1, running := 1, done := 0,
           calls := 0 } : Sched).pending
        + ({ keys := 2, pending := 1, running := 1, done := 0,
             calls := 0 } : Sched).running
        + ({ keys := 2, pending := 1, running := 1, done := 0,
             calls := 0 } : Sched).done := by
  have h1 : SchedReach 1 { keys := 1, pending := 1, running := 0, done := 0, calls := 0 } :=
    SchedReach.next SchedReach.init
      (show schedStep 1 schedInit SEvt.analyzeKey
          = some { keys := 1, pending := 1, running := 0, done := 0, calls := 0 } from rfl)
  have h2 : SchedReach 1 { keys := 2, pending := 2, running := 0, done := 0, calls := 0 } :=
    SchedReach.next h1
      (show schedStep 1 { keys := 1, pending := 1, running := 0, done := 0, calls := 0 }
          SEvt.analyzeKey
          = some { keys := 2, pending := 2, running := 0, done := 0, calls := 0 } from rfl)
  have h3 : SchedReach 1 { keys := 2, pending := 1, running := 1, done := 0, calls := 0 } :=
    SchedReach.next h2
      (show schedStep 1 { keys := 2, pending := 2, running := 0, done := 0, calls := 0 }
          SEvt.start
          = some { keys := 2, pending := 1, running := 1, done := 0, calls := 0 } from by
        decide)
  exact C1_serialized_dispatch 1 _ h3

end GhostMentor
